import Mathlib

/-!
Shallow embedding of the core logic of the Streamlit-IDAssure repository
(the files app.py, face_match_utils.py and ocr_api.py).

Text is modelled as `List Char`.  Python regular-expression search under
`re.IGNORECASE` is modelled by a backtracking matcher over a small
regular-expression term language covering exactly the constructs appearing
in the three pattern tables of the repository.  `datetime.strptime` is
modelled for the directives `%d`, `%m`, `%Y`, `%B`, `%b` together with
literal separator characters and whitespace, following the regular
expressions CPython builds for these directives.  Similarity scores are
modelled over `ℝ` (embedding arithmetic) and `ℚ` (threshold comparisons);
Python `None` is modelled by `Option`, and a Python exception escaping a
function by `Except`.

The character model is ASCII: `str.isdigit`, the class `\d`, the class
`\s` and the class `\w` are restricted to their ASCII meaning.
-/

/-- ASCII model of Python `str.isdigit` and of the regex class `\d`. -/
def pyIsDigit (c : Char) : Bool := 48 ≤ c.toNat && c.toNat ≤ 57

/-- ASCII model of the regex class `\s` (space, tab, newline, carriage
return, vertical tab, form feed) and of `str.strip` whitespace. -/
def pyIsSpace (c : Char) : Bool :=
  c.toNat = 32 || c.toNat = 9 || c.toNat = 10 || c.toNat = 13 ||
  c.toNat = 11 || c.toNat = 12

/-- ASCII letters, upper or lower case. -/
def isAsciiAlpha (c : Char) : Bool :=
  (65 ≤ c.toNat && c.toNat ≤ 90) || (97 ≤ c.toNat && c.toNat ≤ 122)

/-- ASCII model of the regex class `\w`, used by the boundary `\b`. -/
def isWordChar (c : Char) : Bool := isAsciiAlpha c || pyIsDigit c || c == '_'

/-- ASCII lower-casing, the case folding applied by `re.IGNORECASE` in the
ASCII model (CPython lowers both sides when comparing literal letters). -/
def ctoLower (c : Char) : Char :=
  if 65 ≤ c.toNat ∧ c.toNat ≤ 90 then Char.ofNat (c.toNat + 32) else c

/-! ## Regular-expression engine

A backtracking matcher for the constructs used by the three pattern
tables: character classes, case-insensitive literals, concatenation,
alternation, greedy star over a character class, one capture group and
the word boundary `\b`.  `mmatch` returns every way the term can match
at the start of the input, in backtracking priority order (the order the
CPython engine explores), so the head of the list is the match Python
reports.  `prev` is the character just before the current position,
needed by `\b`. -/

inductive CharCls where
  | digit
  | space
  | slashDash
  | colonSpaceDash
  | asciiLower
  deriving DecidableEq

/-- Semantics of the character classes: `\d`, `\s`, the class of a slash or a dash, the class of
a colon or whitespace or a dash and `[a-z]` under `re.IGNORECASE`. -/
def clsMatch : CharCls → Char → Bool
  | .digit, c => pyIsDigit c
  | .space, c => pyIsSpace c
  | .slashDash, c => c == '/' || c == '-'
  | .colonSpaceDash, c => c == ':' || pyIsSpace c || c == '-'
  | .asciiLower, c => isAsciiAlpha c

inductive RE where
  | eps : RE
  | cls : CharCls → RE
  | lit : Char → RE
  | seq : RE → RE → RE
  | alt : RE → RE → RE
  | starCls : CharCls → RE
  | group : RE → RE
  | wordB : RE
  deriving DecidableEq

/-- One way a term matches at the start of an input: the consumed
characters (`group(0)` of the match), the remaining input, and the
content of the capture group if one participated (`group(1)`). -/
structure MRes where
  consumed : List Char
  rest : List Char
  cap : Option (List Char)
  deriving DecidableEq

/-- Greedy star over a character class: longest take first, then each
shorter one, down to the empty take. -/
def starTakes (k : CharCls) (s : List Char) : List MRes :=
  let r := (s.takeWhile (clsMatch k)).length
  (List.range (r + 1)).map (fun i => ⟨s.take (r - i), s.drop (r - i), none⟩)

def isWordOpt : Option Char → Bool
  | none => false
  | some c => isWordChar c

def mmatch : RE → Option Char → List Char → List MRes
  | .eps, _, s => [⟨[], s, none⟩]
  | .cls k, _, s =>
    match s with
    | [] => []
    | c :: r => if clsMatch k c then [⟨[c], r, none⟩] else []
  | .lit l, _, s =>
    match s with
    | [] => []
    | c :: r => if ctoLower c = ctoLower l then [⟨[c], r, none⟩] else []
  | .seq a b, prev, s =>
    (mmatch a prev s).flatMap (fun r1 =>
      (mmatch b (r1.consumed.getLast?.elim prev some) r1.rest).map (fun r2 =>
        ⟨r1.consumed ++ r2.consumed, r2.rest, r2.cap.elim r1.cap some⟩))
  | .alt a b, prev, s => mmatch a prev s ++ mmatch b prev s
  | .starCls k, _, s => starTakes k s
  | .group a, prev, s =>
    (mmatch a prev s).map (fun r => ⟨r.consumed, r.rest, some r.consumed⟩)
  | .wordB, prev, s =>
    if isWordOpt prev != isWordOpt s.head? then [⟨[], s, none⟩] else []

/-- Scan of `re.search`: try each start position from the left; at the
first position where the term matches, report the match the engine
finds first. -/
def searchFrom (re : RE) : Option Char → List Char → Option MRes
  | prev, [] =>
    match mmatch re prev [] with
    | r :: _ => some r
    | [] => none
  | prev, c :: rest =>
    match mmatch re prev (c :: rest) with
    | r :: _ => some r
    | [] => searchFrom re (some c) rest

/-- Model of `re.search(pattern, text, re.IGNORECASE)`. -/
def re_search (re : RE) (s : List Char) : Option MRes := searchFrom re none s

/-- Does the pattern contain a capture group (`match.groups()` nonempty)? -/
def hasGroup : RE → Bool
  | .eps => false
  | .cls _ => false
  | .lit _ => false
  | .seq a b => hasGroup a || hasGroup b
  | .alt a b => hasGroup a || hasGroup b
  | .starCls _ => false
  | .group _ => true
  | .wordB => false

/-- The shared loop shape of all three `extract_dob_text` variants:
try the patterns in order, stop at the first one whose search succeeds. -/
def firstMatchIn : List RE → List Char → Option (RE × MRes)
  | [], _ => none
  | p :: ps, t =>
    match re_search p t with
    | some r => some (p, r)
    | none => firstMatchIn ps t

/-- Sequence of case-insensitive literals for a concrete string. -/
def strRE (s : List Char) : RE := s.foldr (fun c acc => RE.seq (RE.lit c) acc) RE.eps

/-- Concatenation of a list of terms. -/
def seqs (l : List RE) : RE := l.foldr RE.seq RE.eps

/-- Alternation of a nonempty list of terms, left to right. -/
def alts : List RE → RE
  | [] => RE.eps
  | [r] => r
  | r :: rs => RE.alt r (alts rs)

def reD2 : RE := RE.seq (RE.cls CharCls.digit) (RE.cls CharCls.digit)

def reD4 : RE := RE.seq reD2 reD2

def reSep : RE := RE.cls CharCls.slashDash

/-- The body slash-or-dash separated `\d{2} \d{2} \d{4}`. -/
def dateDDMMYYYY : RE := seqs [reD2, reSep, reD2, reSep, reD4]

def monthNamesAbbr : List (List Char) :=
  ["Jan".toList, "Feb".toList, "Mar".toList, "Apr".toList, "May".toList, "Jun".toList,
   "Jul".toList, "Aug".toList, "Sep".toList, "Oct".toList, "Nov".toList, "Dec".toList]

/-- The alternation `(?:Jan|Feb|Mar|Apr|May|Jun|Jul|Aug|Sep|Oct|Nov|Dec)`. -/
def monthAltRE : RE := alts (monthNamesAbbr.map strRE)

/-! ## Pattern tables

The three pattern lists, transcribed from app.py (`extract_dob_text`,
five patterns plus the bare-year fallback), face_match_utils.py
(`extract_dob_text`, six patterns) and ocr_api.py (`extract_dob_text`,
seven patterns).  In the comments below, `SEP` stands for the class of a
slash or a dash. -/

/-- The alternation `\d{1,2}` (greedy: two digits first). -/
def reD12 : RE := RE.alt reD2 (RE.cls CharCls.digit)

/-- app.py pattern 1: `DOB` then `\s*` then `[:\s-]` then `\s*` then a
captured `\d{2} SEP \d{2} SEP \d{4}`. -/
def appP1 : RE :=
  seqs [strRE "DOB".toList, RE.starCls CharCls.space, RE.cls CharCls.colonSpaceDash,
        RE.starCls CharCls.space, RE.group dateDDMMYYYY]

/-- app.py pattern 2: as pattern 1 with the label `Date of Birth`. -/
def appP2 : RE :=
  seqs [strRE "Date of Birth".toList, RE.starCls CharCls.space, RE.cls CharCls.colonSpaceDash,
        RE.starCls CharCls.space, RE.group dateDDMMYYYY]

/-- app.py pattern 3: `\b` then a captured `\d{2}/\d{2}/\d{4}` then `\b`. -/
def appP3 : RE :=
  seqs [RE.wordB, RE.group (seqs [reD2, RE.lit '/', reD2, RE.lit '/', reD4]), RE.wordB]

/-- app.py pattern 4: `\b` then a captured `\d{2}-\d{2}-\d{4}` then `\b`. -/
def appP4 : RE :=
  seqs [RE.wordB, RE.group (seqs [reD2, RE.lit '-', reD2, RE.lit '-', reD4]), RE.wordB]

/-- app.py pattern 5: `\b` then a captured `\d{1,2}\s MONTH \s\d{4}` then `\b`. -/
def appP5 : RE :=
  seqs [RE.wordB,
        RE.group (seqs [reD12, RE.cls CharCls.space, monthAltRE, RE.cls CharCls.space, reD4]),
        RE.wordB]

/-- app.py fallback: `\b` then a captured `19\d{2}|20\d{2}` then `\b`. -/
def appYearRE : RE :=
  seqs [RE.wordB,
        RE.group (RE.alt (seqs [RE.lit '1', RE.lit '9', reD2])
                         (seqs [RE.lit '2', RE.lit '0', reD2])),
        RE.wordB]

def appPatterns : List RE := [appP1, appP2, appP3, appP4, appP5]

/-- face_match_utils.py pattern 1: `\b\d{2} SEP \d{2} SEP \d{4}\b`. -/
def fmP1 : RE := seqs [RE.wordB, dateDDMMYYYY, RE.wordB]

/-- face_match_utils.py pattern 2: `\b\d{4} SEP \d{2} SEP \d{2}\b`. -/
def fmP2 : RE := seqs [RE.wordB, reD4, reSep, reD2, reSep, reD2, RE.wordB]

/-- face_match_utils.py pattern 3: `\b\d{2}\s MONTH [a-z]*\s\d{4}\b`. -/
def fmP3 : RE :=
  seqs [RE.wordB, reD2, RE.cls CharCls.space, monthAltRE, RE.starCls CharCls.asciiLower,
        RE.cls CharCls.space, reD4, RE.wordB]

/-- face_match_utils.py pattern 4: `DOB` then `[:\s-]*` then a captured
`\d{2} SEP \d{2} SEP \d{4}` (written with `[0-9]` in the source). -/
def fmP4 : RE :=
  seqs [strRE "DOB".toList, RE.starCls CharCls.colonSpaceDash, RE.group dateDDMMYYYY]

/-- face_match_utils.py pattern 5: as pattern 4 with the label `Date of Birth`. -/
def fmP5 : RE :=
  seqs [strRE "Date of Birth".toList, RE.starCls CharCls.colonSpaceDash, RE.group dateDDMMYYYY]

/-- The Devanagari label characters of the sixth pattern (the word for
birth). -/
def devBirth : List Char := ['ज', 'न', '्', 'म']

/-- The Devanagari label characters of the sixth pattern (the word for
date). -/
def devDate : List Char := ['त', 'ि', 'थ', 'ि']

/-- face_match_utils.py pattern 6: the Devanagari label, `[\s]*`, the rest
of the label, `[:\s-]*`, then a captured `\d{2} SEP \d{2} SEP \d{4}`. -/
def fmP6 : RE :=
  seqs [strRE devBirth, RE.starCls CharCls.space, strRE devDate,
        RE.starCls CharCls.colonSpaceDash, RE.group dateDDMMYYYY]

def fmPatterns : List RE := [fmP1, fmP2, fmP3, fmP4, fmP5, fmP6]

/-- ocr_api.py pattern 3: `\b\d{2} SEP \d{2} SEP \d{2}\b`. -/
def ocrP3 : RE := seqs [RE.wordB, reD2, reSep, reD2, reSep, reD2, RE.wordB]

/-- ocr_api.py pattern 4: `\b\d{2}\s MONTH [a-z]*\s\d{4}\b`. -/
def ocrP4 : RE := fmP3

def ocrPatterns : List RE := [fmP1, fmP2, ocrP3, ocrP4, fmP4, fmP5, fmP6]

/-! ## The three extract_dob_text variants over normalized text -/

/-- Result policy of app.py: `match.group(1) if match.groups() else
match.group(0)` — the captured group when the pattern defines one. -/
def groupOrWhole (p : RE) (r : MRes) : List Char :=
  if hasGroup p then r.cap.getD r.consumed else r.consumed

/-- Result policy of ocr_api.py: `match.group(1) if match.lastindex else
match.group(0)` — the captured group when one participated in the match. -/
def capOrWhole (r : MRes) : List Char :=
  match r.cap with
  | some g => g
  | none => r.consumed

/-- app.py `extract_dob_text`, from the normalized OCR text onward: the
five-pattern loop, then the bare-year fallback, then `None`. -/
def extract_dob_text_app (text : List Char) : Option (List Char) :=
  match firstMatchIn appPatterns text with
  | some (p, r) => some (groupOrWhole p r)
  | none =>
    match re_search appYearRE text with
    | some r => some r.consumed
    | none => none

/-- face_match_utils.py `extract_dob_text`, from the normalized OCR text
onward: the six-pattern loop always returns `match.group(0)`. -/
def extract_dob_text_fm (text : List Char) : Option (List Char) :=
  match firstMatchIn fmPatterns text with
  | some (_, r) => some r.consumed
  | none => none

/-- ocr_api.py `extract_dob_text`, from the normalized OCR text onward:
the seven-pattern loop with the `lastindex` result policy. -/
def extract_dob_text_ocr (text : List Char) : Option (List Char) :=
  match firstMatchIn ocrPatterns text with
  | some (_, r) => some (capOrWhole r)
  | none => none

/-- Text normalizer: `" ".join(fragments)`. -/
def joinSp (l : List (List Char)) : List Char := (l.intersperse [' ']).flatten

/-! ## Model of datetime.strptime for the formats used

CPython translates a strptime format into one regular expression and
takes its first match (backtracking priority), then demands that the
match covered the whole input, then builds a `datetime`, which validates
ranges (year 1 to 9999, day within the month).  The directives are
translated as: `%d` to `3[01]` or `[12]\d` or `0[1-9]` or `[1-9]`, `%m`
to `1[0-2]` or `0[1-9]` or `[1-9]`, `%Y` to exactly four digits, `%B`
and `%b` to the month-name alternation (longest name first), a space in
the format to `\s+`, and any other character to itself.  Missing fields
default to year 1900, month 1, day 1. -/

/-- Numeric value of an ASCII digit. -/
def dval (c : Char) : Nat := c.toNat - 48

def condOne (b : Bool) (x : α) : List α := if b then [x] else []

/-- Alternatives of `%d` in priority order, each with the remaining input. -/
def parseDayAlts (s : List Char) : List (Nat × List Char) :=
  match s with
  | [] => []
  | [c1] => condOne (pyIsDigit c1 && 49 ≤ c1.toNat) (dval c1, [])
  | c1 :: c2 :: rest =>
      condOne (c1 == '3' && (c2 == '0' || c2 == '1')) (30 + dval c2, rest) ++
      condOne ((c1 == '1' || c1 == '2') && pyIsDigit c2) (10 * dval c1 + dval c2, rest) ++
      condOne (c1 == '0' && (pyIsDigit c2 && 49 ≤ c2.toNat)) (dval c2, rest) ++
      condOne (pyIsDigit c1 && 49 ≤ c1.toNat) (dval c1, c2 :: rest)

/-- Alternatives of `%m` in priority order. -/
def parseMonthAlts (s : List Char) : List (Nat × List Char) :=
  match s with
  | [] => []
  | [c1] => condOne (pyIsDigit c1 && 49 ≤ c1.toNat) (dval c1, [])
  | c1 :: c2 :: rest =>
      condOne (c1 == '1' && (c2 == '0' || c2 == '1' || c2 == '2')) (10 + dval c2, rest) ++
      condOne (c1 == '0' && (pyIsDigit c2 && 49 ≤ c2.toNat)) (dval c2, rest) ++
      condOne (pyIsDigit c1 && 49 ≤ c1.toNat) (dval c1, c2 :: rest)

/-- The directive `%Y`: exactly four digits. -/
def parseYear4 (s : List Char) : List (Nat × List Char) :=
  match s with
  | c1 :: c2 :: c3 :: c4 :: rest =>
      condOne (pyIsDigit c1 && pyIsDigit c2 && pyIsDigit c3 && pyIsDigit c4)
        (((dval c1 * 10 + dval c2) * 10 + dval c3) * 10 + dval c4, rest)
  | _ => []

/-- Case-insensitive match of a concrete name at the start of the input,
returning the remaining input. -/
def matchNameCI : List Char → List Char → Option (List Char)
  | [], s => some s
  | _ :: _, [] => none
  | n :: ns, c :: cs => if ctoLower c = ctoLower n then matchNameCI ns cs else none

/-- Full month names with their numbers, longest first as CPython sorts
them when building the `%B` alternation. -/
def monthFullTable : List (List Char × Nat) :=
  [("september".toList, 9), ("february".toList, 2), ("november".toList, 11),
   ("december".toList, 12), ("january".toList, 1), ("october".toList, 10),
   ("august".toList, 8), ("march".toList, 3), ("april".toList, 4),
   ("june".toList, 6), ("july".toList, 7), ("may".toList, 5)]

/-- Abbreviated month names with their numbers (`%b`). -/
def monthAbbrTable : List (List Char × Nat) :=
  [("jan".toList, 1), ("feb".toList, 2), ("mar".toList, 3), ("apr".toList, 4),
   ("may".toList, 5), ("jun".toList, 6), ("jul".toList, 7), ("aug".toList, 8),
   ("sep".toList, 9), ("oct".toList, 10), ("nov".toList, 11), ("dec".toList, 12)]

def parseNameList (tbl : List (List Char × Nat)) (s : List Char) : List (Nat × List Char) :=
  tbl.filterMap (fun p => (matchNameCI p.1 s).map (fun rest => (p.2, rest)))

/-- A space in the format: `\s+`, greedy. -/
def parseWs (s : List Char) : List (Nat × List Char) :=
  let k := (s.takeWhile pyIsSpace).length
  (List.range k).map (fun i => (0, s.drop (k - i)))

/-- A literal format character. -/
def parseLit (ch : Char) (s : List Char) : List (Nat × List Char) :=
  match s with
  | [] => []
  | c :: rest => condOne (c == ch) (0, rest)

inductive FTok where
  | D : FTok
  | M : FTok
  | Y : FTok
  | Bfull : FTok
  | Babbr : FTok
  | litc : Char → FTok
  | ws : FTok
  deriving DecidableEq

def parseTok : FTok → List Char → List (Nat × List Char)
  | .D, s => parseDayAlts s
  | .M, s => parseMonthAlts s
  | .Y, s => parseYear4 s
  | .Bfull, s => parseNameList monthFullTable s
  | .Babbr, s => parseNameList monthAbbrTable s
  | .litc ch, s => parseLit ch s
  | .ws, s => parseWs s

/-- Fields recovered so far while matching a format. -/
structure PParts where
  d : Option Nat
  m : Option Nat
  y : Option Nat
  deriving DecidableEq

def updParts (t : FTok) (v : Nat) (p : PParts) : PParts :=
  match t with
  | .D => { p with d := some v }
  | .M => { p with m := some v }
  | .Bfull => { p with m := some v }
  | .Babbr => { p with m := some v }
  | .Y => { p with y := some v }
  | .litc _ => p
  | .ws => p

/-- All ways a format matches the start of the input, in backtracking
priority order. -/
def parseToks : List FTok → PParts → List Char → List (PParts × List Char)
  | [], acc, s => [(acc, s)]
  | t :: ts, acc, s =>
    (parseTok t s).flatMap (fun vr => parseToks ts (updParts t vr.1 acc) vr.2)

/-- A date as carried by the Python `datetime` value. -/
structure PDate where
  year : Int
  month : Nat
  day : Nat
  deriving DecidableEq

def isLeap (y : Int) : Bool := y % 4 == 0 && (y % 100 != 0 || y % 400 == 0)

def daysInMonth (y : Int) (m : Nat) : Nat :=
  if m = 2 then (if isLeap y then 29 else 28)
  else if m = 4 ∨ m = 6 ∨ m = 9 ∨ m = 11 then 30
  else 31

/-- Validation performed by the `datetime` constructor. -/
def mkDateChecked (y m d : Nat) : Option PDate :=
  if 1 ≤ y ∧ y ≤ 9999 ∧ 1 ≤ m ∧ m ≤ 12 ∧ 1 ≤ d ∧ d ≤ daysInMonth (y : Int) m then
    some ⟨(y : Int), m, d⟩
  else none

/-- Model of `datetime.strptime(s, fmt)`: first match of the format at
the start, which must cover the whole input; then date construction. -/
def strptime (fmt : List FTok) (s : List Char) : Option PDate :=
  match (parseToks fmt ⟨none, none, none⟩ s).head? with
  | some (parts, rest) =>
    if rest = [] then mkDateChecked (parts.y.getD 1900) (parts.m.getD 1) (parts.d.getD 1)
    else none
  | none => none

/-- The format-list loop shared by both parse_age variants: first format
that parses wins, a `ValueError` only moves to the next format. -/
def tryFormats : List (List FTok) → List Char → Option PDate
  | [], _ => none
  | f :: fs, s =>
    match strptime f s with
    | some d => some d
    | none => tryFormats fs s

def fmtDMYslash : List FTok := [.D, .litc '/', .M, .litc '/', .Y]

def fmtDMYdash : List FTok := [.D, .litc '-', .M, .litc '-', .Y]

def fmtDMYdot : List FTok := [.D, .litc '.', .M, .litc '.', .Y]

def fmtDBfullY : List FTok := [.D, .ws, .Bfull, .ws, .Y]

def fmtDBabbrY : List FTok := [.D, .ws, .Babbr, .ws, .Y]

def fmtDMYspace : List FTok := [.D, .ws, .M, .ws, .Y]

def fmtYMDdash : List FTok := [.Y, .litc '-', .M, .litc '-', .D]

def fmtYMDslash : List FTok := [.Y, .litc '/', .M, .litc '/', .D]

def fmtYonly : List FTok := [.Y]

/-- The format list of app.py `parse_age_from_dob`. -/
def appFormats : List (List FTok) :=
  [fmtDMYslash, fmtDMYdash, fmtDMYdot, fmtDBfullY, fmtDBabbrY, fmtDMYspace]

/-- The format list of face_match_utils.py `parse_age_from_dob`. -/
def fmFormats : List (List FTok) :=
  [fmtDMYslash, fmtDMYdash, fmtYMDdash, fmtDBabbrY, fmtDBfullY, fmtYMDslash]

/-- Python `str.strip()`. -/
def pyStrip (s : List Char) : List Char :=
  ((s.dropWhile pyIsSpace).reverse.dropWhile pyIsSpace).reverse

/-- Python tuple comparison `(a, b) < (c, d)`. -/
def pairLt (a b : Nat × Nat) : Bool := a.1 < b.1 || (a.1 == b.1 && a.2 < b.2)

/-- The age formula of both variants: year difference, minus one when the
birthday has not yet been reached this year. -/
def ageOn (today dob : PDate) : Int :=
  today.year - dob.year - (if pairLt (today.month, today.day) (dob.month, dob.day) then 1 else 0)

/-- Value of `int(s)` for a string of ASCII digits. -/
def digitsVal (s : List Char) : Nat := s.foldl (fun acc c => acc * 10 + dval c) 0

/-- app.py `parse_age_from_dob`.  `if not dob_text` covers both `None`
and the empty string; the bare four-digit branch comes before the format
loop; the `int` call on a string of ASCII digits cannot fail. -/
def parse_age_from_dob (dob_text : Option (List Char)) (today : PDate) : Option Int :=
  match dob_text with
  | none => none
  | some s =>
    if s = [] then none
    else if s.all pyIsDigit && s.length == 4 then
      some (today.year - (digitsVal s : Int))
    else
      match tryFormats appFormats (pyStrip s) with
      | some dob => some (ageOn today dob)
      | none => none

inductive PyErr where
  | typeError : PyErr
  deriving DecidableEq

/-- face_match_utils.py `parse_age_from_dob`.  There is no guard for an
absent input: on `None` every loop iteration raises `AttributeError`
inside its bare `except` (so the loop just continues), and then
`filter(str.isdigit, dob_text)` raises an uncaught `TypeError`.  On a
present string the format loop runs first, then the digit-filter
fallback parses a four-digit year with `%Y` (so year zero fails and
yields `None`). -/
def fm_parse_age_from_dob (dob_text : Option (List Char)) (today : PDate) :
    Except PyErr (Option Int) :=
  match dob_text with
  | some s =>
    match tryFormats fmFormats (pyStrip s) with
    | some dob => .ok (some (ageOn today dob))
    | none =>
      if (s.filter pyIsDigit).length == 4 then
        match strptime fmtYonly (s.filter pyIsDigit) with
        | some dob => .ok (some (today.year - dob.year))
        | none => .ok none
      else .ok none
  | none => .error .typeError

/-! ## Similarity scorer

`compare_faces` is textually identical in app.py and face_match_utils.py.
Embeddings are modelled as vectors of `EuclideanSpace ℝ (Fin n)`, so that
`np.linalg.norm` is the norm and `np.dot` is the inner product; an absent
embedding (`None`, no face detected) is `Option.none`. -/

/-- `compare_faces(emb1, emb2)`: `0.0` when either embedding is absent,
otherwise each vector is divided by its norm and the dot product of the
two scaled vectors is returned. -/
noncomputable def compare_faces {n : ℕ} (emb1 emb2 : Option (EuclideanSpace ℝ (Fin n))) : ℝ :=
  match emb1, emb2 with
  | some a, some b => (inner ((‖a‖)⁻¹ • a) ((‖b‖)⁻¹ • b) : ℝ)
  | _, _ => 0

/-- Instrumented `compare_faces` making the division visible: each of the
two divisions of the source is replaced by a checked division, so the
result is `none` exactly when a division by zero is reached.  The source
guards only on absence, so present embeddings always reach the divisions. -/
noncomputable def compare_faces_checked {n : ℕ}
    (emb1 emb2 : Option (EuclideanSpace ℝ (Fin n))) : Option ℝ :=
  match emb1, emb2 with
  | some a, some b =>
    if ‖a‖ = 0 ∨ ‖b‖ = 0 then none
    else some ((inner ((‖a‖)⁻¹ • a) ((‖b‖)⁻¹ • b) : ℝ))
  | _, _ => some 0

/-! ## Verdict block of app.py

The module-level result block (lines 179 to 209 of app.py): the face
match message, the age message and the final verdict banner, as
functions of the already-computed score and age.  The score comparison
uses the threshold `0.70`; there is no other threshold in app.py. -/

def face_match_threshold : ℚ := 70 / 100

inductive FaceMsg where
  | noFaceID : FaceMsg
  | noFaceSelfie : FaceMsg
  | matchSuccess : FaceMsg
  | noMatch : FaceMsg
  deriving DecidableEq

inductive AgeMsg where
  | success18 : AgeMsg
  | underage : AgeMsg
  | unknown : AgeMsg
  deriving DecidableEq

/-- The face-match message chain: absent ID embedding, absent selfie
embedding, `score > 0.70`, otherwise no match. -/
def faceMsgOf (emb1Present emb2Present : Bool) (score : ℚ) : FaceMsg :=
  if emb1Present = false then .noFaceID
  else if emb2Present = false then .noFaceSelfie
  else if face_match_threshold < score then .matchSuccess
  else .noMatch

/-- The age message chain: `age is not None and age >= 18`, then
`age is not None`, otherwise age unknown. -/
def ageMsgOf (age : Option Int) : AgeMsg :=
  match age with
  | some a => if 18 ≤ a then .success18 else .underage
  | none => .unknown

/-- The final banner: success exactly when `score > 0.70` and the age is
known and at least 18. -/
def finalVerdictOk (score : ℚ) (age : Option Int) : Bool :=
  decide (face_match_threshold < score) &&
  (match age with
   | some a => decide (18 ≤ a)
   | none => false)

/-- Everything the verdict block displays about score and age. -/
def appVerdictDisplay (emb1Present emb2Present : Bool) (score : ℚ) (age : Option Int) :
    FaceMsg × AgeMsg × Bool :=
  (faceMsgOf emb1Present emb2Present score, ageMsgOf age, finalVerdictOk score age)

inductive SpecVerdict where
  | fullSuccess : SpecVerdict
  | ageFailed : SpecVerdict
  | ageUndetermined : SpecVerdict
  | lowConfidence : SpecVerdict
  | failed : SpecVerdict
  deriving DecidableEq

/-- Modelled from the spec wording of the claimed decision policy: the
five-rule first-match ladder with match threshold `0.70` and lower
threshold `0.5`.  This follows the claim text, for comparison against
the code; it is not a transcription of app.py. -/
def decideSpec (score : ℚ) (age : Option Int) : SpecVerdict :=
  if face_match_threshold < score then
    match age with
    | some a => if 18 ≤ a then .fullSuccess else .ageFailed
    | none => .ageUndetermined
  else if 1 / 2 < score then .lowConfidence
  else .failed

inductive Verdict4 where
  | fullSuccess : Verdict4
  | ageFailed : Verdict4
  | ageUndetermined : Verdict4
  | failed : Verdict4
  deriving DecidableEq

/-- The four-rule first-match ladder: the three success-side rules of the
claim, with everything below the match threshold collapsing to failure. -/
def ladder4 (score : ℚ) (age : Option Int) : Verdict4 :=
  if face_match_threshold < score then
    match age with
    | some a => if 18 ≤ a then .fullSuccess else .ageFailed
    | none => .ageUndetermined
  else .failed

/-- Outcome category determined by the displayed messages. -/
def classifyDisplay (d : FaceMsg × AgeMsg × Bool) : Verdict4 :=
  if d.2.2 then .fullSuccess
  else
    match d.1, d.2.1 with
    | .matchSuccess, .underage => .ageFailed
    | .matchSuccess, .unknown => .ageUndetermined
    | _, _ => .failed

/-! ## OCR endpoint of ocr_api.py -/

/-- A POST request as the endpoint sees it: an optional uploaded file
under the key `image`. -/
structure OcrRequest (F : Type) where
  imageField : Option F

inductive OcrBody where
  | errorMsg : List Char → OcrBody
  | dobText : Option (List Char) → OcrBody
  deriving DecidableEq

/-- The `/ocr` handler: missing field and undecodable image each answer
status 400 with an error body; otherwise status 200 with the
DOB-extraction result (string or null) under `dob_text`.  Image decoding
and the OCR reader are external collaborators passed as functions;
`readtextFragments` returns the recognized fragments that the handler
joins and scans. -/
def ocr_dob {F Img : Type} (decodeImage : F → Option Img)
    (readtextFragments : Img → List (List Char)) (req : OcrRequest F) : Nat × OcrBody :=
  match req.imageField with
  | none => (400, .errorMsg "No image uploaded".toList)
  | some f =>
    match decodeImage f with
    | none => (400, .errorMsg "Invalid image format".toList)
    | some img => (200, .dobText (extract_dob_text_ocr (joinSp (readtextFragments img))))

/-! ## Auxiliary definitions used by the statements -/

/-- The full ordered pattern table of app.py `extract_dob_text`: the five
loop patterns followed by the bare-year fallback. -/
def appPatternsAll : List RE := [appP1, appP2, appP3, appP4, appP5, appYearRE]

/-- Result the app.py function returns for the pattern at position `i` of
`appPatternsAll`: the group policy for the five loop patterns, the whole
match for the fallback. -/
def appResultAt (i : Nat) (r : MRes) : List Char :=
  if i < 5 then groupOrWhole (appPatternsAll.getD i RE.eps) r else r.consumed

/-- Case folding of a match result, componentwise. -/
def foldRes (r : MRes) : MRes :=
  ⟨r.consumed.map ctoLower, r.rest.map ctoLower, r.cap.map (List.map ctoLower)⟩

/-- Does every successful match of the term pass through a capture group? -/
def allGroup : RE → Bool
  | .eps => false
  | .cls _ => false
  | .lit _ => false
  | .seq a b => allGroup a || allGroup b
  | .alt a b => allGroup a && allGroup b
  | .starCls _ => false
  | .group _ => true
  | .wordB => false

/-- A concrete nonzero embedding used to instantiate universally
quantified statements. -/
def vOne : EuclideanSpace ℝ (Fin 2) := fun _ => 1

/-! ## Character lemmas for the case folding -/

theorem char_toNat_ofNat {n : Nat} (h : n.isValidChar) : (Char.ofNat n).toNat = n := by
  unfold Char.ofNat
  rw [dif_pos h]
  rfl

theorem char_eq_iff_toNat {a b : Char} : a = b ↔ a.toNat = b.toNat := by
  constructor
  · intro h; rw [h]
  · intro h
    apply Char.ext
    apply UInt32.eq_of_toBitVec_eq
    apply BitVec.eq_of_toNat_eq
    exact h

theorem ctoLower_of_not_upper {c : Char} (h : ¬ (65 ≤ c.toNat ∧ c.toNat ≤ 90)) :
    ctoLower c = c := by
  unfold ctoLower
  rw [if_neg h]

theorem ctoLower_toNat_of_upper {c : Char} (h : 65 ≤ c.toNat ∧ c.toNat ≤ 90) :
    (ctoLower c).toNat = c.toNat + 32 := by
  unfold ctoLower
  rw [if_pos h]
  exact char_toNat_ofNat (Or.inl (by omega))

theorem ctoLower_idem (c : Char) : ctoLower (ctoLower c) = ctoLower c := by
  by_cases h : 65 ≤ c.toNat ∧ c.toNat ≤ 90
  · have h2 := ctoLower_toNat_of_upper h
    exact ctoLower_of_not_upper (by omega)
  · rw [ctoLower_of_not_upper h, ctoLower_of_not_upper h]

theorem pyIsDigit_ctoLower (c : Char) : pyIsDigit (ctoLower c) = pyIsDigit c := by
  by_cases h : 65 ≤ c.toNat ∧ c.toNat ≤ 90
  · have h2 := ctoLower_toNat_of_upper h
    unfold pyIsDigit
    rw [h2, Bool.eq_iff_iff]
    simp only [Bool.and_eq_true, decide_eq_true_eq]
    omega
  · rw [ctoLower_of_not_upper h]

theorem pyIsSpace_ctoLower (c : Char) : pyIsSpace (ctoLower c) = pyIsSpace c := by
  by_cases h : 65 ≤ c.toNat ∧ c.toNat ≤ 90
  · have h2 := ctoLower_toNat_of_upper h
    unfold pyIsSpace
    rw [h2, Bool.eq_iff_iff]
    simp only [Bool.or_eq_true, decide_eq_true_eq]
    omega
  · rw [ctoLower_of_not_upper h]

theorem isAsciiAlpha_ctoLower (c : Char) : isAsciiAlpha (ctoLower c) = isAsciiAlpha c := by
  by_cases h : 65 ≤ c.toNat ∧ c.toNat ≤ 90
  · have h2 := ctoLower_toNat_of_upper h
    unfold isAsciiAlpha
    rw [h2, Bool.eq_iff_iff]
    simp only [Bool.or_eq_true, Bool.and_eq_true, decide_eq_true_eq]
    omega
  · rw [ctoLower_of_not_upper h]

theorem ctoLower_eq_punct {c d : Char}
    (hd1 : ¬ (65 ≤ d.toNat ∧ d.toNat ≤ 90))
    (hd2 : ¬ (97 ≤ d.toNat ∧ d.toNat ≤ 122)) :
    (ctoLower c = d) = (c = d) := by
  by_cases h : 65 ≤ c.toNat ∧ c.toNat ≤ 90
  · have h2 := ctoLower_toNat_of_upper h
    apply propext
    constructor
    · intro he
      exfalso
      rw [char_eq_iff_toNat] at he
      omega
    · intro he
      exfalso
      rw [char_eq_iff_toNat] at he
      omega
  · rw [ctoLower_of_not_upper h]

theorem isWordChar_ctoLower (c : Char) : isWordChar (ctoLower c) = isWordChar c := by
  unfold isWordChar
  rw [pyIsDigit_ctoLower, isAsciiAlpha_ctoLower]
  have : ((ctoLower c) == '_') = (c == '_') := by
    rw [Bool.eq_iff_iff, beq_iff_eq, beq_iff_eq, ctoLower_eq_punct (by decide) (by decide)]
  rw [this]

/-! ## Concrete evaluations of the extractors and the age parser -/

example : extract_dob_text_app "DOB: 12/05/1998".toList = some "12/05/1998".toList := by decide

example : extract_dob_text_app "no dates here".toList = none := by decide

example : extract_dob_text_app "born around 1987 maybe".toList = some "1987".toList := by decide

example : extract_dob_text_fm "DOB:12/05/19980".toList = some "DOB:12/05/1998".toList := by decide

example : extract_dob_text_ocr "dob - 12/05/1998".toList = some "12/05/1998".toList := by decide

example : strptime fmtDMYslash "12/05/1998".toList = some ⟨1998, 5, 12⟩ := by decide

example : strptime fmtDMYslash "31/02/1998".toList = none := by decide

example : parse_age_from_dob (some "12/05/1998".toList) ⟨2024, 5, 1⟩ = some 25 := by decide

example : parse_age_from_dob (some "12/05/1998".toList) ⟨2024, 6, 1⟩ = some 26 := by decide

example : parse_age_from_dob (some "1998".toList) ⟨2024, 3, 3⟩ = some 26 := by decide

example : parse_age_from_dob (some "12 May 1998".toList) ⟨2024, 6, 1⟩ = some 26 := by decide

example : parse_age_from_dob (some "not a date".toList) ⟨2024, 6, 1⟩ = none := by decide

example : parse_age_from_dob (some "0000".toList) ⟨2024, 5, 1⟩ = some 2024 := by decide

example : fm_parse_age_from_dob (some "0000".toList) ⟨2024, 5, 1⟩ = .ok none := by rfl

example : fm_parse_age_from_dob (some "1998".toList) ⟨2024, 5, 1⟩ = .ok (some 26) := by rfl

example : fm_parse_age_from_dob none ⟨2024, 5, 1⟩ = .error .typeError := by rfl

/-! ## Helper lemmas -/

theorem vOne_ne_zero : vOne ≠ 0 := by
  intro h
  have h0 : vOne 0 = 0 := by rw [h]; rfl
  norm_num [vOne] at h0

/-! ## C3: compare with an absent embedding -/

/-- C3: for every pair of inputs where at least one embedding is absent,
`compare_faces` returns exactly 0.0, regardless of the other input. -/
theorem c3_compare_absent_zero {n : ℕ} (e1 e2 : Option (EuclideanSpace ℝ (Fin n)))
    (h : e1 = none ∨ e2 = none) : compare_faces e1 e2 = 0 := by
  rcases h with h | h
  · subst h
    cases e2 <;> rfl
  · subst h
    cases e1 <;> rfl

/-- Witness for C3 at a concrete pair. -/
theorem c3_witness : compare_faces (some vOne) (none : Option (EuclideanSpace ℝ (Fin 2))) = 0 :=
  c3_compare_absent_zero (some vOne) none (Or.inr rfl)

/-! ## C9: cosine similarity of present embeddings -/

/-- C9: for present embeddings of nonzero norm, `compare_faces` scales
both to unit norm and returns their dot product, and the result lies in
the closed interval from -1 to 1. -/
theorem c9_cosine_range {n : ℕ} (a b : EuclideanSpace ℝ (Fin n))
    (ha : a ≠ 0) (hb : b ≠ 0) :
    compare_faces (some a) (some b) = (inner ((‖a‖)⁻¹ • a) ((‖b‖)⁻¹ • b) : ℝ) ∧
    ‖(‖a‖)⁻¹ • a‖ = 1 ∧ ‖(‖b‖)⁻¹ • b‖ = 1 ∧
    -1 ≤ compare_faces (some a) (some b) ∧ compare_faces (some a) (some b) ≤ 1 := by
  have h1 : ‖(‖a‖)⁻¹ • a‖ = 1 := norm_smul_inv_norm ha
  have h2 : ‖(‖b‖)⁻¹ • b‖ = 1 := norm_smul_inv_norm hb
  have hc : compare_faces (some a) (some b) = (inner ((‖a‖)⁻¹ • a) ((‖b‖)⁻¹ • b) : ℝ) := rfl
  have h3 : |compare_faces (some a) (some b)| ≤ 1 := by
    rw [hc]
    calc |(inner ((‖a‖)⁻¹ • a) ((‖b‖)⁻¹ • b) : ℝ)|
        ≤ ‖(‖a‖)⁻¹ • a‖ * ‖(‖b‖)⁻¹ • b‖ := abs_real_inner_le_norm _ _
      _ = 1 := by rw [h1, h2, mul_one]
  obtain ⟨hl, hr⟩ := abs_le.mp h3
  exact ⟨hc, h1, h2, hl, hr⟩

/-- Witness for C9 at a concrete pair of nonzero embeddings. -/
theorem c9_witness :
    -1 ≤ compare_faces (some vOne) (some vOne) ∧ compare_faces (some vOne) (some vOne) ≤ 1 := by
  have h := c9_cosine_range vOne vOne vOne_ne_zero vOne_ne_zero
  exact ⟨h.2.2.2.1, h.2.2.2.2⟩

/-! ## C10: the division is guarded only by absence -/

/-- C10: `compare_faces` guards only on absence.  In the instrumented
semantics, a present all-zero embedding reaches the division by a zero
norm (result `none`), while for present embeddings of nonzero norm the
checked run agrees with `compare_faces`. -/
theorem c10_division_guard {n : ℕ} :
    (∀ b : EuclideanSpace ℝ (Fin n),
      compare_faces_checked (some (0 : EuclideanSpace ℝ (Fin n))) (some b) = none) ∧
    (∀ a : EuclideanSpace ℝ (Fin n),
      compare_faces_checked (some a) (some (0 : EuclideanSpace ℝ (Fin n))) = none) ∧
    (∀ a b : EuclideanSpace ℝ (Fin n), ‖a‖ ≠ 0 → ‖b‖ ≠ 0 →
      compare_faces_checked (some a) (some b) = some (compare_faces (some a) (some b))) := by
  refine ⟨fun b => ?_, fun a => ?_, fun a b ha hb => ?_⟩
  · simp only [compare_faces_checked]
    rw [if_pos (Or.inl norm_zero)]
  · simp only [compare_faces_checked]
    rw [if_pos (Or.inr norm_zero)]
  · simp only [compare_faces_checked]
    rw [if_neg (by push_neg; exact ⟨ha, hb⟩)]
    rfl

/-- Witness for C10 at concrete embeddings. -/
theorem c10_witness :
    compare_faces_checked (some (0 : EuclideanSpace ℝ (Fin 2))) (some vOne) = none ∧
    compare_faces_checked (some vOne) (some vOne) = some (compare_faces (some vOne) (some vOne)) := by
  have h := c10_division_guard (n := 2)
  exact ⟨h.1 vOne,
    h.2.2 vOne vOne (norm_ne_zero_iff.mpr vOne_ne_zero) (norm_ne_zero_iff.mpr vOne_ne_zero)⟩

/-! ## C1: the verdict block against the claimed five-rule ladder -/

/-- C1 counterexample: at score 0.55 (above 0.5, at most 0.70) with a
known adult age, the verdict block of app.py displays exactly what it
displays at score 0.10, while the claimed five-rule ladder separates the
two inputs into low-confidence and failed.  The code has no
low-confidence tier. -/
theorem c1_counterexample :
    appVerdictDisplay true true (55 / 100) (some 20) =
      appVerdictDisplay true true (10 / 100) (some 20) ∧
    decideSpec (55 / 100) (some 20) = SpecVerdict.lowConfidence ∧
    decideSpec (10 / 100) (some 20) = SpecVerdict.failed := by
  refine ⟨?_, ?_, ?_⟩ <;>
    norm_num [appVerdictDisplay, faceMsgOf, ageMsgOf, finalVerdictOk, decideSpec,
      face_match_threshold]

/-- C1 (amended): the verdict block realizes the four-rule first-match
ladder: score above 0.70 with known adult age is full success, with known
minor age is age failure, with unknown age is age undetermined, and every
score at most 0.70 is verification failure. -/
theorem c1_verdict_ladder (score : ℚ) (age : Option Int) :
    classifyDisplay (appVerdictDisplay true true score age) = ladder4 score age := by
  cases age with
  | none =>
    by_cases h : face_match_threshold < score <;>
      simp [appVerdictDisplay, classifyDisplay, ladder4, faceMsgOf, ageMsgOf, finalVerdictOk, h]
  | some a =>
    by_cases h : face_match_threshold < score <;> by_cases h2 : (18 : Int) ≤ a <;>
      simp [appVerdictDisplay, classifyDisplay, ladder4, faceMsgOf, ageMsgOf, finalVerdictOk, h, h2]

/-! ## C8: the OCR endpoint -/

/-- C8: the `/ocr` handler answers a client error (status 400) when the
image field is missing or the image cannot be decoded, and otherwise a
200 response whose body carries the DOB-extraction result under
`dob_text`. -/
theorem c8_ocr_endpoint {F Img : Type} (decodeImage : F → Option Img)
    (readtextFragments : Img → List (List Char)) (req : OcrRequest F) :
    (req.imageField = none →
      ocr_dob decodeImage readtextFragments req =
        (400, OcrBody.errorMsg "No image uploaded".toList)) ∧
    (∀ f, req.imageField = some f → decodeImage f = none →
      ocr_dob decodeImage readtextFragments req =
        (400, OcrBody.errorMsg "Invalid image format".toList)) ∧
    (∀ f img, req.imageField = some f → decodeImage f = some img →
      ocr_dob decodeImage readtextFragments req =
        (200, OcrBody.dobText (extract_dob_text_ocr (joinSp (readtextFragments img))))) := by
  refine ⟨fun h => ?_, fun f hf hd => ?_, fun f img hf hd => ?_⟩
  · simp only [ocr_dob, h]
  · simp only [ocr_dob, hf, hd]
  · simp only [ocr_dob, hf, hd]

/-- Witness for C8 at a concrete request. -/
theorem c8_witness :
    ocr_dob (fun x : Nat => some x) (fun _ : Nat => ([] : List (List Char)))
      ⟨some 3⟩ = (200, OcrBody.dobText none) := by
  have h := (c8_ocr_endpoint (fun x : Nat => some x)
    (fun _ : Nat => ([] : List (List Char))) ⟨some 3⟩).2.2 3 3 rfl rfl
  rw [h]
  rfl

/-! ## Helper lemmas about digits, stripping and format failure -/

theorem pyIsDigit_toNat {c : Char} (h : pyIsDigit c = true) : 48 ≤ c.toNat ∧ c.toNat ≤ 57 := by
  simpa [pyIsDigit, Bool.and_eq_true, decide_eq_true_eq] using h

theorem digit_not_space {c : Char} (h : pyIsDigit c = true) : pyIsSpace c = false := by
  have h2 := pyIsDigit_toNat h
  rw [pyIsSpace, Bool.eq_false_iff]
  intro hs
  simp only [Bool.or_eq_true, decide_eq_true_eq] at hs
  omega

theorem dropWhile_eq_self_of_all {p : Char → Bool} {s : List Char}
    (h : ∀ c ∈ s, p c = false) : s.dropWhile p = s := by
  cases s with
  | nil => rfl
  | cons a t => simp [List.dropWhile_cons, h a (List.mem_cons_self a t)]

theorem pyStrip_eq_self_of_digits {s : List Char} (h : s.all pyIsDigit = true) :
    pyStrip s = s := by
  have hns : ∀ c ∈ s, pyIsSpace c = false :=
    fun c hc => digit_not_space (List.all_eq_true.mp h c hc)
  unfold pyStrip
  rw [dropWhile_eq_self_of_all hns,
    dropWhile_eq_self_of_all (fun c hc => hns c (List.mem_reverse.mp hc)),
    List.reverse_reverse]

theorem list_length_four {α : Type} {s : List α} (h : s.length = 4) :
    ∃ a b c d, s = [a, b, c, d] := by
  rcases s with _ | ⟨a, _ | ⟨b, _ | ⟨c, _ | ⟨d, _ | ⟨e, t⟩⟩⟩⟩⟩ <;> simp_all

theorem mem_condOne {α : Type} {b : Bool} {v x : α} (h : x ∈ condOne b v) : x = v := by
  unfold condOne at h
  split at h
  · simpa using h
  · simp at h

theorem parseDayAlts_rest {c1 c2 : Char} {rest : List Char} {vr : Nat × List Char}
    (h : vr ∈ parseDayAlts (c1 :: c2 :: rest)) : vr.2 = rest ∨ vr.2 = c2 :: rest := by
  simp only [parseDayAlts, List.mem_append] at h
  rcases h with ((h | h) | h) | h
  · exact Or.inl (by rw [mem_condOne h])
  · exact Or.inl (by rw [mem_condOne h])
  · exact Or.inl (by rw [mem_condOne h])
  · exact Or.inr (by rw [mem_condOne h])

theorem parseTok_litc_digit_head {ch x : Char} {xs : List Char}
    (hx : pyIsDigit x = true) (hch : pyIsDigit ch = false) :
    parseTok (FTok.litc ch) (x :: xs) = [] := by
  have hne : (x == ch) = false := by
    rw [beq_eq_false_iff_ne]
    intro he
    subst he
    rw [hx] at hch
    exact Bool.noConfusion hch
  simp [parseTok, parseLit, condOne, hne]

theorem parseTok_ws_digit_head {x : Char} {xs : List Char} (hx : pyIsDigit x = true) :
    parseTok FTok.ws (x :: xs) = [] := by
  simp [parseTok, parseWs, List.takeWhile_cons, digit_not_space hx]

theorem parseToks_cons_nil {t : FTok} {ts : List FTok} {acc : PParts} {s : List Char}
    (h : parseTok t s = []) : parseToks (t :: ts) acc s = [] := by
  simp [parseToks, h]

theorem strptime_digits4_none_dsep {t2 : FTok} {ts : List FTok} {a b c d : Char}
    (hb : pyIsDigit b = true) (hc : pyIsDigit c = true)
    (ht2 : ∀ (x : Char) (xs : List Char), pyIsDigit x = true → parseTok t2 (x :: xs) = []) :
    strptime (FTok.D :: t2 :: ts) [a, b, c, d] = none := by
  have hpt : parseToks (FTok.D :: t2 :: ts) ⟨none, none, none⟩ [a, b, c, d] = [] := by
    show (parseTok FTok.D [a, b, c, d]).flatMap _ = []
    apply List.flatMap_eq_nil_iff.mpr
    intro vr hvr
    rcases parseDayAlts_rest hvr with h2 | h2 <;> rw [h2]
    · exact parseToks_cons_nil (ht2 c [d] hc)
    · exact parseToks_cons_nil (ht2 b [c, d] hb)
  unfold strptime
  rw [hpt]
  rfl

theorem strptime_digits4_none_yfirst {t2 : FTok} {ts : List FTok} {a b c d : Char}
    (ha : pyIsDigit a = true) (hb : pyIsDigit b = true)
    (hc : pyIsDigit c = true) (hd : pyIsDigit d = true)
    (ht2 : parseTok t2 [] = []) :
    strptime (FTok.Y :: t2 :: ts) [a, b, c, d] = none := by
  have hy : parseTok FTok.Y [a, b, c, d] =
      [(((dval a * 10 + dval b) * 10 + dval c) * 10 + dval d, [])] := by
    simp [parseTok, parseYear4, condOne, ha, hb, hc, hd]
  have hpt : parseToks (FTok.Y :: t2 :: ts) ⟨none, none, none⟩ [a, b, c, d] = [] := by
    show (parseTok FTok.Y [a, b, c, d]).flatMap _ = []
    rw [hy]
    simp only [List.flatMap_cons, List.flatMap_nil, List.append_nil]
    exact parseToks_cons_nil ht2
  unfold strptime
  rw [hpt]
  rfl

theorem tryFormats_cons_none {f : List FTok} {fs : List (List FTok)} {s : List Char}
    (h : strptime f s = none) : tryFormats (f :: fs) s = tryFormats fs s := by
  simp [tryFormats, h]

theorem tryFormats_digits4_app {a b c d : Char}
    (_ha : pyIsDigit a = true) (hb : pyIsDigit b = true)
    (hc : pyIsDigit c = true) (_hd : pyIsDigit d = true) :
    tryFormats appFormats [a, b, c, d] = none := by
  unfold appFormats fmtDMYslash fmtDMYdash fmtDMYdot fmtDBfullY fmtDBabbrY fmtDMYspace
  rw [tryFormats_cons_none (strptime_digits4_none_dsep hb hc
        (fun x xs hx => parseTok_litc_digit_head hx (by decide))),
      tryFormats_cons_none (strptime_digits4_none_dsep hb hc
        (fun x xs hx => parseTok_litc_digit_head hx (by decide))),
      tryFormats_cons_none (strptime_digits4_none_dsep hb hc
        (fun x xs hx => parseTok_litc_digit_head hx (by decide))),
      tryFormats_cons_none (strptime_digits4_none_dsep hb hc
        (fun x xs hx => parseTok_ws_digit_head hx)),
      tryFormats_cons_none (strptime_digits4_none_dsep hb hc
        (fun x xs hx => parseTok_ws_digit_head hx)),
      tryFormats_cons_none (strptime_digits4_none_dsep hb hc
        (fun x xs hx => parseTok_ws_digit_head hx))]
  rfl

theorem tryFormats_digits4_fm {a b c d : Char}
    (ha : pyIsDigit a = true) (hb : pyIsDigit b = true)
    (hc : pyIsDigit c = true) (hd : pyIsDigit d = true) :
    tryFormats fmFormats [a, b, c, d] = none := by
  unfold fmFormats fmtDMYslash fmtDMYdash fmtYMDdash fmtDBabbrY fmtDBfullY fmtYMDslash
  rw [tryFormats_cons_none (strptime_digits4_none_dsep hb hc
        (fun x xs hx => parseTok_litc_digit_head hx (by decide))),
      tryFormats_cons_none (strptime_digits4_none_dsep hb hc
        (fun x xs hx => parseTok_litc_digit_head hx (by decide))),
      tryFormats_cons_none (strptime_digits4_none_yfirst ha hb hc hd
        (rfl : parseTok (FTok.litc '-') [] = [])),
      tryFormats_cons_none (strptime_digits4_none_dsep hb hc
        (fun x xs hx => parseTok_ws_digit_head hx)),
      tryFormats_cons_none (strptime_digits4_none_dsep hb hc
        (fun x xs hx => parseTok_ws_digit_head hx)),
      tryFormats_cons_none (strptime_digits4_none_yfirst ha hb hc hd
        (rfl : parseTok (FTok.litc '/') [] = []))]
  rfl

theorem digitsVal_four (a b c d : Char) :
    digitsVal [a, b, c, d] = ((dval a * 10 + dval b) * 10 + dval c) * 10 + dval d := by
  simp [digitsVal, List.foldl]

theorem strptime_year_only {a b c d : Char}
    (ha : pyIsDigit a = true) (hb : pyIsDigit b = true)
    (hc : pyIsDigit c = true) (hd : pyIsDigit d = true)
    (h1 : 1 ≤ digitsVal [a, b, c, d]) :
    strptime fmtYonly [a, b, c, d] = some ⟨(digitsVal [a, b, c, d] : Int), 1, 1⟩ := by
  have hy : parseTok FTok.Y [a, b, c, d] =
      [(((dval a * 10 + dval b) * 10 + dval c) * 10 + dval d, [])] := by
    simp [parseTok, parseYear4, condOne, ha, hb, hc, hd]
  have hpt : parseToks fmtYonly ⟨none, none, none⟩ [a, b, c, d] =
      [(⟨none, none, some (((dval a * 10 + dval b) * 10 + dval c) * 10 + dval d)⟩, [])] := by
    show (parseTok FTok.Y [a, b, c, d]).flatMap _ = _
    rw [hy]
    rfl
  have hv9999 : ((dval a * 10 + dval b) * 10 + dval c) * 10 + dval d ≤ 9999 := by
    have h2 := pyIsDigit_toNat ha
    have h3 := pyIsDigit_toNat hb
    have h4 := pyIsDigit_toNat hc
    have h5 := pyIsDigit_toNat hd
    unfold dval
    omega
  rw [digitsVal_four] at h1 ⊢
  unfold strptime
  rw [hpt]
  simp only [List.head?_cons, Option.getD_some, Option.getD_none, if_true]
  unfold mkDateChecked
  rw [if_pos ⟨h1, hv9999, by norm_num, by norm_num, by norm_num, by norm_num [daysInMonth]⟩]

/-! ## C6: the bare four-digit year -/

/-- C6 counterexample: on the bare four-digit numeric input `0000`, the
face_match_utils.py variant returns `None` (year zero fails the `%Y`
date construction), not the current year minus zero. -/
theorem c6_counterexample :
    fm_parse_age_from_dob (some "0000".toList) ⟨2024, 5, 1⟩ = Except.ok none ∧
    ("0000".toList.all pyIsDigit = true ∧ "0000".toList.length = 4) ∧
    (Except.ok none : Except PyErr (Option Int)) ≠
      Except.ok (some ((2024 : Int) - (digitsVal "0000".toList : Int))) := by
  refine ⟨by rfl, by decide, ?_⟩
  intro h
  injection h with h2
  exact Option.noConfusion h2

/-- C6 (amended): for every bare four-digit numeric input the app.py
variant returns the current year minus that year with no month or day
adjustment; the face_match_utils.py variant does the same whenever the
four-digit value is at least one. -/
theorem c6_bare_year :
    (∀ (s : List Char) (today : PDate), s.all pyIsDigit = true → s.length = 4 →
      parse_age_from_dob (some s) today = some (today.year - (digitsVal s : Int))) ∧
    (∀ (s : List Char) (today : PDate), s.all pyIsDigit = true → s.length = 4 →
      1 ≤ digitsVal s →
      fm_parse_age_from_dob (some s) today =
        Except.ok (some (today.year - (digitsVal s : Int)))) := by
  constructor
  · intro s today hall hlen
    have hne : ¬(s = []) := by
      intro h
      subst h
      simp at hlen
    simp only [parse_age_from_dob]
    rw [if_neg hne, if_pos (by simp [hall, hlen])]
  · intro s today hall hlen h1
    obtain ⟨a, b, c, d, rfl⟩ := list_length_four hlen
    have ha : pyIsDigit a = true := by simp [List.all_cons] at hall; exact hall.1
    have hb : pyIsDigit b = true := by simp [List.all_cons] at hall; exact hall.2.1
    have hc : pyIsDigit c = true := by simp [List.all_cons] at hall; exact hall.2.2.1
    have hd : pyIsDigit d = true := by simp [List.all_cons] at hall; exact hall.2.2.2
    have hfil : List.filter pyIsDigit [a, b, c, d] = [a, b, c, d] :=
      List.filter_eq_self.mpr (fun x hx => List.all_eq_true.mp hall x hx)
    simp only [fm_parse_age_from_dob]
    rw [pyStrip_eq_self_of_digits hall, tryFormats_digits4_fm ha hb hc hd, hfil]
    rw [if_pos (by simp), strptime_year_only ha hb hc hd h1]

/-- Witness for C6 at the input 1998. -/
theorem c6_witness :
    parse_age_from_dob (some "1998".toList) ⟨2024, 3, 3⟩ =
      some ((2024 : Int) - (digitsVal "1998".toList : Int)) ∧
    fm_parse_age_from_dob (some "1998".toList) ⟨2024, 3, 3⟩ =
      Except.ok (some ((2024 : Int) - (digitsVal "1998".toList : Int))) :=
  ⟨c6_bare_year.1 _ _ (by decide) (by decide),
   c6_bare_year.2 _ _ (by decide) (by decide) (by decide)⟩

/-! ## C7: totality of parse_age -/

/-- C7 counterexample: the face_match_utils.py variant raises an uncaught
`TypeError` on an absent input instead of returning `None`. -/
theorem c7_counterexample :
    fm_parse_age_from_dob none ⟨2024, 5, 1⟩ = Except.error PyErr.typeError := rfl

/-- C7 (amended): the app.py variant is total and never raises (absent
input and unparsed input both give `None`); the face_match_utils.py
variant never raises on a present input and returns `None` when nothing
parses, but raises `TypeError` on an absent input. -/
theorem c7_total_no_raise :
    (∀ today : PDate, parse_age_from_dob none today = none) ∧
    (∀ (s : List Char) (today : PDate),
      ¬(s.all pyIsDigit = true ∧ s.length = 4) →
      tryFormats appFormats (pyStrip s) = none →
      parse_age_from_dob (some s) today = none) ∧
    (∀ (s : List Char) (today : PDate),
      ∃ v, fm_parse_age_from_dob (some s) today = Except.ok v) ∧
    (∀ (s : List Char) (today : PDate),
      tryFormats fmFormats (pyStrip s) = none →
      (s.filter pyIsDigit).length ≠ 4 →
      fm_parse_age_from_dob (some s) today = Except.ok none) := by
  refine ⟨fun today => rfl, ?_, ?_, ?_⟩
  · intro s today hnb htf
    by_cases hnil : s = []
    · subst hnil
      rfl
    · have hcond : (s.all pyIsDigit && s.length == 4) = false := by
        rw [Bool.eq_false_iff]
        intro hx
        simp only [Bool.and_eq_true, beq_iff_eq] at hx
        exact hnb hx
      simp only [parse_age_from_dob]
      rw [if_neg hnil, if_neg (by rw [hcond]; exact Bool.false_ne_true), htf]
  · intro s today
    simp only [fm_parse_age_from_dob]
    cases h1 : tryFormats fmFormats (pyStrip s) with
    | some dob => exact ⟨some (ageOn today dob), rfl⟩
    | none =>
      by_cases h2 : ((s.filter pyIsDigit).length == 4) = true
      · cases h3 : strptime fmtYonly (s.filter pyIsDigit) with
        | some dob => exact ⟨some (today.year - dob.year), by simp [h2, h3]⟩
        | none => exact ⟨none, by simp [h2, h3]⟩
      · exact ⟨none, by simp [h2]⟩
  · intro s today htf hlen
    simp only [fm_parse_age_from_dob]
    rw [htf, if_neg (by simp [hlen])]

/-- Witness for C7 at concrete inputs. -/
theorem c7_witness :
    parse_age_from_dob none ⟨2024, 1, 1⟩ = none ∧
    parse_age_from_dob (some "not a date".toList) ⟨2024, 1, 1⟩ = none ∧
    fm_parse_age_from_dob (some "hello".toList) ⟨2024, 1, 1⟩ = Except.ok none :=
  ⟨c7_total_no_raise.1 _,
   c7_total_no_raise.2.1 _ _ (by decide) (by decide),
   c7_total_no_raise.2.2.2 _ _ (by decide) (by decide)⟩

/-! ## C5: the age formula for template-parsed dates -/

/-- C5: whenever a DOB string parses under one of the date-format
templates (for any current date), the computed age is the year
difference, lowered by one exactly when the current month-day pair is
lexicographically below the birth month-day pair.  Stated for both the
app.py and the face_match_utils.py variant. -/
theorem c5_age_formula :
    (∀ (s : List Char) (today dob : PDate),
      tryFormats appFormats (pyStrip s) = some dob →
      parse_age_from_dob (some s) today =
        some (today.year - dob.year -
          (if pairLt (today.month, today.day) (dob.month, dob.day) then 1 else 0))) ∧
    (∀ (s : List Char) (today dob : PDate),
      tryFormats fmFormats (pyStrip s) = some dob →
      fm_parse_age_from_dob (some s) today =
        Except.ok (some (today.year - dob.year -
          (if pairLt (today.month, today.day) (dob.month, dob.day) then 1 else 0)))) := by
  constructor
  · intro s today dob h
    have hnil : s ≠ [] := by
      intro he
      subst he
      rw [show tryFormats appFormats (pyStrip []) = none from by decide] at h
      exact Option.noConfusion h
    have hnb : (s.all pyIsDigit && s.length == 4) = false := by
      rw [Bool.eq_false_iff]
      intro hx
      simp only [Bool.and_eq_true, beq_iff_eq] at hx
      obtain ⟨a, b, c, d, rfl⟩ := list_length_four hx.2
      have hall := hx.1
      have ha : pyIsDigit a = true := by simp [List.all_cons] at hall; exact hall.1
      have hb : pyIsDigit b = true := by simp [List.all_cons] at hall; exact hall.2.1
      have hc : pyIsDigit c = true := by simp [List.all_cons] at hall; exact hall.2.2.1
      have hd : pyIsDigit d = true := by simp [List.all_cons] at hall; exact hall.2.2.2
      rw [pyStrip_eq_self_of_digits hall, tryFormats_digits4_app ha hb hc hd] at h
      exact Option.noConfusion h
    simp only [parse_age_from_dob]
    rw [if_neg hnil, if_neg (by rw [hnb]; exact Bool.false_ne_true), h]
    rfl
  · intro s today dob h
    simp only [fm_parse_age_from_dob]
    rw [h]
    rfl

/-- Witness for C5 at the spec examples. -/
theorem c5_witness :
    parse_age_from_dob (some "12/05/1998".toList) ⟨2024, 5, 1⟩ =
      some ((2024 : Int) - 1998 -
        (if pairLt (5, 1) (5, 12) then 1 else 0)) ∧
    fm_parse_age_from_dob (some "12-05-1998".toList) ⟨2024, 6, 1⟩ =
      Except.ok (some ((2024 : Int) - 1998 -
        (if pairLt (6, 1) (5, 12) then 1 else 0))) :=
  ⟨c5_age_formula.1 _ ⟨2024, 5, 1⟩ ⟨1998, 5, 12⟩ (by decide),
   c5_age_formula.2 _ ⟨2024, 6, 1⟩ ⟨1998, 5, 12⟩ (by decide)⟩

/-! ## Helper lemmas about the first-match loop -/

theorem firstMatchIn_eq_none_iff {ps : List RE} {t : List Char} :
    firstMatchIn ps t = none ↔ ∀ p ∈ ps, re_search p t = none := by
  induction ps with
  | nil => simp [firstMatchIn]
  | cons p ps ih =>
    simp only [firstMatchIn]
    cases h : re_search p t with
    | some r =>
      constructor
      · intro hc
        exact Option.noConfusion hc
      · intro hall
        have h2 := hall p (List.mem_cons_self p ps)
        rw [h] at h2
        exact Option.noConfusion h2
    | none =>
      rw [ih]
      constructor
      · intro hall q hq
        rcases List.mem_cons.mp hq with rfl | hq2
        · exact h
        · exact hall q hq2
      · intro hall q hq
        exact hall q (List.mem_cons_of_mem p hq)

theorem firstMatchIn_some_mem {ps : List RE} {t : List Char} {p : RE} {r : MRes}
    (h : firstMatchIn ps t = some (p, r)) : p ∈ ps ∧ re_search p t = some r := by
  induction ps with
  | nil => simp [firstMatchIn] at h
  | cons q ps ih =>
    simp only [firstMatchIn] at h
    cases hq : re_search q t with
    | some r2 =>
      rw [hq] at h
      simp only [Option.some.injEq, Prod.mk.injEq] at h
      obtain ⟨rfl, rfl⟩ := h
      exact ⟨List.mem_cons_self q ps, hq⟩
    | none =>
      rw [hq] at h
      have h2 := ih h
      exact ⟨List.mem_cons_of_mem q h2.1, h2.2⟩

theorem firstMatchIn_at {ps : List RE} {t : List Char} {i : Nat} {r : MRes}
    (hlen : i < ps.length)
    (hnone : ∀ j, j < i → re_search (ps.getD j RE.eps) t = none)
    (hsome : re_search (ps.getD i RE.eps) t = some r) :
    firstMatchIn ps t = some (ps.getD i RE.eps, r) := by
  induction ps generalizing i with
  | nil => simp at hlen
  | cons p ps ih =>
    cases i with
    | zero =>
      simp only [List.getD_cons_zero] at hsome ⊢
      simp only [firstMatchIn, hsome]
    | succ i =>
      have h0 : re_search p t = none := by
        have h2 := hnone 0 (Nat.succ_pos i)
        simpa using h2
      simp only [firstMatchIn, h0]
      simp only [List.getD_cons_succ] at hsome ⊢
      exact ih (by simpa using hlen)
        (fun j hj => by
          have h3 := hnone (j + 1) (by omega)
          simpa using h3) hsome

/-! ## C4: first-match-wins over the ordered pattern tables -/

/-- C4: both in app.py (five patterns then the year fallback) and in
ocr_api.py (seven patterns), `extract_dob_text` returns the result of the
first pattern whose search succeeds — later patterns are irrelevant once
an earlier one matches — and returns `None` exactly when no pattern
matches anywhere in the text. -/
theorem c4_first_match_wins :
    (∀ t : List Char,
      (extract_dob_text_app t = none ↔ ∀ p ∈ appPatternsAll, re_search p t = none) ∧
      (∀ i r, i < appPatternsAll.length →
        (∀ j, j < i → re_search (appPatternsAll.getD j RE.eps) t = none) →
        re_search (appPatternsAll.getD i RE.eps) t = some r →
        extract_dob_text_app t = some (appResultAt i r))) ∧
    (∀ t : List Char,
      (extract_dob_text_ocr t = none ↔ ∀ p ∈ ocrPatterns, re_search p t = none) ∧
      (∀ i r, i < ocrPatterns.length →
        (∀ j, j < i → re_search (ocrPatterns.getD j RE.eps) t = none) →
        re_search (ocrPatterns.getD i RE.eps) t = some r →
        extract_dob_text_ocr t = some (capOrWhole r))) := by
  have hconv : ∀ j, j < 5 → appPatternsAll.getD j RE.eps = appPatterns.getD j RE.eps := by
    decide
  constructor
  · intro t
    constructor
    · constructor
      · intro he
        cases hm : firstMatchIn appPatterns t with
        | some pr =>
          simp only [extract_dob_text_app, hm] at he
          exact Option.noConfusion he
        | none =>
          cases hy : re_search appYearRE t with
          | some r =>
            simp only [extract_dob_text_app, hm, hy] at he
            exact Option.noConfusion he
          | none =>
            have h5 := firstMatchIn_eq_none_iff.mp hm
            intro p hp
            have hp2 : p = appP1 ∨ p = appP2 ∨ p = appP3 ∨ p = appP4 ∨ p = appP5 ∨
                p = appYearRE := by
              simpa [appPatternsAll] using hp
            rcases hp2 with rfl | rfl | rfl | rfl | rfl | rfl
            · exact h5 _ (by simp [appPatterns])
            · exact h5 _ (by simp [appPatterns])
            · exact h5 _ (by simp [appPatterns])
            · exact h5 _ (by simp [appPatterns])
            · exact h5 _ (by simp [appPatterns])
            · exact hy
      · intro hall
        have hm : firstMatchIn appPatterns t = none := by
          apply firstMatchIn_eq_none_iff.mpr
          intro p hp
          apply hall
          have hp2 : p = appP1 ∨ p = appP2 ∨ p = appP3 ∨ p = appP4 ∨ p = appP5 := by
            simpa [appPatterns] using hp
          rcases hp2 with rfl | rfl | rfl | rfl | rfl <;> simp [appPatternsAll]
        have hy : re_search appYearRE t = none := hall appYearRE (by simp [appPatternsAll])
        simp only [extract_dob_text_app, hm, hy]
    · intro i r hlen hnone hsome
      by_cases hi : i < 5
      · have hsome2 : re_search (appPatterns.getD i RE.eps) t = some r := by
          rw [← hconv i hi]
          exact hsome
        have key : firstMatchIn appPatterns t = some (appPatterns.getD i RE.eps, r) :=
          firstMatchIn_at hi
            (fun j hj => by rw [← hconv j (by omega)]; exact hnone j (by omega)) hsome2
        simp only [extract_dob_text_app, key]
        rw [appResultAt, if_pos hi, hconv i hi]
      · have hi5 : i = 5 := by
          simp only [appPatternsAll] at hlen
          simp at hlen
          omega
        subst hi5
        have hy : re_search appYearRE t = some r := hsome
        have hm : firstMatchIn appPatterns t = none := by
          apply firstMatchIn_eq_none_iff.mpr
          intro p hp
          have hp2 : p = appP1 ∨ p = appP2 ∨ p = appP3 ∨ p = appP4 ∨ p = appP5 := by
            simpa [appPatterns] using hp
          rcases hp2 with rfl | rfl | rfl | rfl | rfl
          · exact hnone 0 (by omega)
          · exact hnone 1 (by omega)
          · exact hnone 2 (by omega)
          · exact hnone 3 (by omega)
          · exact hnone 4 (by omega)
        simp only [extract_dob_text_app, hm, hy, appResultAt]
        norm_num
  · intro t
    constructor
    · constructor
      · intro he
        cases hm : firstMatchIn ocrPatterns t with
        | some pr =>
          simp only [extract_dob_text_ocr, hm] at he
          exact Option.noConfusion he
        | none => exact firstMatchIn_eq_none_iff.mp hm
      · intro hall
        have hm : firstMatchIn ocrPatterns t = none := firstMatchIn_eq_none_iff.mpr hall
        simp only [extract_dob_text_ocr, hm]
    · intro i r hlen hnone hsome
      have key : firstMatchIn ocrPatterns t = some (ocrPatterns.getD i RE.eps, r) :=
        firstMatchIn_at hlen hnone hsome
      simp only [extract_dob_text_ocr, key]

/-- Witness for C4 at a concrete text whose first matching app pattern is
the third one, and whose first matching ocr pattern is the first one. -/
theorem c4_witness :
    extract_dob_text_app "01/01/2000".toList =
      some (appResultAt 2
        ⟨"01/01/2000".toList, [], some "01/01/2000".toList⟩) ∧
    extract_dob_text_ocr "01/01/2000".toList =
      some (capOrWhole ⟨"01/01/2000".toList, [], none⟩) :=
  ⟨(c4_first_match_wins.1 "01/01/2000".toList).2 2
      ⟨"01/01/2000".toList, [], some "01/01/2000".toList⟩
      (by decide) (by decide) (by decide),
   (c4_first_match_wins.2 "01/01/2000".toList).2 0
      ⟨"01/01/2000".toList, [], none⟩
      (by decide) (by decide) (by decide)⟩

/-! ## Case-insensitivity: matching commutes with case folding -/

theorem beq_ctoLower_punct {c d : Char}
    (hd1 : ¬ (65 ≤ d.toNat ∧ d.toNat ≤ 90))
    (hd2 : ¬ (97 ≤ d.toNat ∧ d.toNat ≤ 122)) :
    ((ctoLower c) == d) = (c == d) := by
  rw [Bool.eq_iff_iff, beq_iff_eq, beq_iff_eq, ctoLower_eq_punct hd1 hd2]

theorem clsMatch_ctoLower (k : CharCls) (c : Char) :
    clsMatch k (ctoLower c) = clsMatch k c := by
  cases k with
  | digit => exact pyIsDigit_ctoLower c
  | space => exact pyIsSpace_ctoLower c
  | slashDash =>
    simp only [clsMatch]
    rw [beq_ctoLower_punct (by decide) (by decide), beq_ctoLower_punct (by decide) (by decide)]
  | colonSpaceDash =>
    simp only [clsMatch]
    rw [beq_ctoLower_punct (by decide) (by decide), beq_ctoLower_punct (by decide) (by decide),
      pyIsSpace_ctoLower]
  | asciiLower => exact isAsciiAlpha_ctoLower c

theorem isWordOpt_map (o : Option Char) : isWordOpt (o.map ctoLower) = isWordOpt o := by
  cases o with
  | none => rfl
  | some c => exact isWordChar_ctoLower c

theorem mmatch_fold (re : RE) : ∀ (prev : Option Char) (s : List Char),
    mmatch re (prev.map ctoLower) (s.map ctoLower) = (mmatch re prev s).map foldRes := by
  induction re with
  | eps =>
    intro prev s
    simp [mmatch, foldRes]
  | cls k =>
    intro prev s
    cases s with
    | nil => rfl
    | cons c r =>
      simp only [List.map_cons, mmatch, clsMatch_ctoLower]
      by_cases h : clsMatch k c = true
      · rw [if_pos h, if_pos h]
        simp [foldRes]
      · rw [if_neg h, if_neg h]
        rfl
  | lit l =>
    intro prev s
    cases s with
    | nil => rfl
    | cons c r =>
      simp only [List.map_cons, mmatch, ctoLower_idem]
      by_cases h : ctoLower c = ctoLower l
      · rw [if_pos h, if_pos h]
        simp [foldRes]
      · rw [if_neg h, if_neg h]
        rfl
  | seq a b iha ihb =>
    intro prev s
    simp only [mmatch]
    rw [iha, List.flatMap_map, List.map_flatMap]
    congr 1
    funext r1
    have hprev : (foldRes r1).consumed.getLast?.elim (prev.map ctoLower) some
        = (r1.consumed.getLast?.elim prev some).map ctoLower := by
      simp only [foldRes, List.getLast?_map]
      cases r1.consumed.getLast? <;> rfl
    have hrest : (foldRes r1).rest = r1.rest.map ctoLower := rfl
    rw [hprev, hrest, ihb, List.map_map, List.map_map]
    congr 1
    funext r2
    simp only [Function.comp, foldRes, List.map_append]
    cases r2.cap <;> simp [Option.elim]
  | alt a b iha ihb =>
    intro prev s
    simp only [mmatch]
    rw [iha, ihb, List.map_append]
  | starCls k =>
    intro prev s
    have hfun : clsMatch k ∘ ctoLower = clsMatch k := funext (fun c => clsMatch_ctoLower k c)
    simp only [mmatch, starTakes]
    rw [List.takeWhile_map, hfun, List.length_map, List.map_map]
    congr 1
    funext i
    simp only [Function.comp, List.map_take, List.map_drop, foldRes]
    rfl
  | group a iha =>
    intro prev s
    simp only [mmatch]
    rw [iha, List.map_map, List.map_map]
    rfl
  | wordB =>
    intro prev s
    simp only [mmatch]
    rw [isWordOpt_map, List.head?_map, isWordOpt_map]
    by_cases h : (isWordOpt prev != isWordOpt s.head?) = true
    · rw [if_pos h, if_pos h]
      simp [foldRes]
    · rw [if_neg h, if_neg h]
      rfl

theorem searchFrom_fold (re : RE) : ∀ (s : List Char) (prev : Option Char),
    searchFrom re (prev.map ctoLower) (s.map ctoLower) = (searchFrom re prev s).map foldRes := by
  intro s
  induction s with
  | nil =>
    intro prev
    simp only [List.map_nil, searchFrom]
    rw [show mmatch re (prev.map ctoLower) ([] : List Char)
        = (mmatch re prev []).map foldRes from by simpa using mmatch_fold re prev []]
    cases mmatch re prev [] with
    | nil => rfl
    | cons r t => rfl
  | cons c rest ih =>
    intro prev
    simp only [List.map_cons, searchFrom]
    rw [show mmatch re (prev.map ctoLower) (ctoLower c :: rest.map ctoLower)
        = (mmatch re prev (c :: rest)).map foldRes from by
          simpa using mmatch_fold re prev (c :: rest)]
    cases mmatch re prev (c :: rest) with
    | cons r t => rfl
    | nil =>
      simp only [List.map_nil]
      exact ih (some c)

theorem re_search_fold (re : RE) (s : List Char) :
    re_search re (s.map ctoLower) = (re_search re s).map foldRes :=
  searchFrom_fold re s none

theorem firstMatchIn_fold (ps : List RE) (t : List Char) :
    firstMatchIn ps (t.map ctoLower) =
      (firstMatchIn ps t).map (fun pr => (pr.1, foldRes pr.2)) := by
  induction ps with
  | nil => rfl
  | cons p ps ih =>
    simp only [firstMatchIn]
    rw [re_search_fold]
    cases re_search p t with
    | some r => rfl
    | none => simpa using ih

/-! ## Capture-group structure of matches -/

theorem mem_mmatch_eps {prev : Option Char} {s : List Char} {r : MRes}
    (hr : r ∈ mmatch RE.eps prev s) : r = ⟨[], s, none⟩ := by
  simpa [mmatch] using hr

theorem mem_mmatch_wordB {prev : Option Char} {s : List Char} {r : MRes}
    (hr : r ∈ mmatch RE.wordB prev s) : r = ⟨[], s, none⟩ := by
  simp only [mmatch] at hr
  split at hr
  · simpa using hr
  · simp at hr

theorem mem_mmatch_group {a : RE} {prev : Option Char} {s : List Char} {r : MRes}
    (hr : r ∈ mmatch (RE.group a) prev s) :
    ∃ r2 ∈ mmatch a prev s, r = ⟨r2.consumed, r2.rest, some r2.consumed⟩ := by
  simp only [mmatch, List.mem_map] at hr
  obtain ⟨r2, h2, rfl⟩ := hr
  exact ⟨r2, h2, rfl⟩

theorem mem_mmatch_seq {a b : RE} {prev : Option Char} {s : List Char} {r : MRes}
    (hr : r ∈ mmatch (RE.seq a b) prev s) :
    ∃ r1 ∈ mmatch a prev s, ∃ r2 ∈ mmatch b (r1.consumed.getLast?.elim prev some) r1.rest,
      r = ⟨r1.consumed ++ r2.consumed, r2.rest, r2.cap.elim r1.cap some⟩ := by
  simp only [mmatch, List.mem_flatMap, List.mem_map] at hr
  obtain ⟨r1, h1, r2, h2, rfl⟩ := hr
  exact ⟨r1, h1, r2, h2, rfl⟩

theorem cap_none_of_not_hasGroup {p : RE} (h : hasGroup p = false) :
    ∀ (prev : Option Char) (s : List Char) (r : MRes), r ∈ mmatch p prev s → r.cap = none := by
  induction p with
  | eps =>
    intro prev s r hr
    rw [mem_mmatch_eps hr]
  | cls k =>
    intro prev s r hr
    cases s with
    | nil => simp [mmatch] at hr
    | cons c t =>
      simp only [mmatch] at hr
      split at hr
      · rw [show r = ⟨[c], t, none⟩ from by simpa using hr]
      · simp at hr
  | lit l =>
    intro prev s r hr
    cases s with
    | nil => simp [mmatch] at hr
    | cons c t =>
      simp only [mmatch] at hr
      split at hr
      · rw [show r = ⟨[c], t, none⟩ from by simpa using hr]
      · simp at hr
  | seq a b iha ihb =>
    intro prev s r hr
    simp only [hasGroup, Bool.or_eq_false_iff] at h
    obtain ⟨r1, h1, r2, h2, rfl⟩ := mem_mmatch_seq hr
    have hc1 := iha h.1 _ _ _ h1
    have hc2 := ihb h.2 _ _ _ h2
    simp [hc1, hc2]
  | alt a b iha ihb =>
    intro prev s r hr
    simp only [hasGroup, Bool.or_eq_false_iff] at h
    simp only [mmatch, List.mem_append] at hr
    rcases hr with hr | hr
    · exact iha h.1 _ _ _ hr
    · exact ihb h.2 _ _ _ hr
  | starCls k =>
    intro prev s r hr
    simp only [mmatch, starTakes, List.mem_map] at hr
    obtain ⟨i, _, rfl⟩ := hr
    rfl
  | group a iha =>
    intro prev s r hr
    simp [hasGroup] at h
  | wordB =>
    intro prev s r hr
    rw [mem_mmatch_wordB hr]

theorem cap_some_of_allGroup {p : RE} (h : allGroup p = true) :
    ∀ (prev : Option Char) (s : List Char) (r : MRes), r ∈ mmatch p prev s →
      ∃ g, r.cap = some g := by
  induction p with
  | eps => simp [allGroup] at h
  | cls k => simp [allGroup] at h
  | lit l => simp [allGroup] at h
  | starCls k => simp [allGroup] at h
  | wordB => simp [allGroup] at h
  | seq a b iha ihb =>
    intro prev s r hr
    obtain ⟨r1, h1, r2, h2, rfl⟩ := mem_mmatch_seq hr
    simp only [allGroup, Bool.or_eq_true] at h
    cases hc2 : r2.cap with
    | some g => exact ⟨g, by simp [hc2]⟩
    | none =>
      rcases h with h | h
      · obtain ⟨g, hg⟩ := iha h _ _ _ h1
        exact ⟨g, by simp [hc2, hg]⟩
      · obtain ⟨g, hg⟩ := ihb h _ _ _ h2
        rw [hg] at hc2
        exact Option.noConfusion hc2
  | alt a b iha ihb =>
    intro prev s r hr
    simp only [allGroup, Bool.and_eq_true] at h
    simp only [mmatch, List.mem_append] at hr
    rcases hr with hr | hr
    · exact iha h.1 _ _ _ hr
    · exact ihb h.2 _ _ _ hr
  | group a iha =>
    intro prev s r hr
    obtain ⟨r2, _, rfl⟩ := mem_mmatch_group hr
    exact ⟨r2.consumed, rfl⟩

theorem re_search_mem {p : RE} {t : List Char} {r : MRes} (h : re_search p t = some r) :
    ∃ (prev : Option Char) (s : List Char), r ∈ mmatch p prev s := by
  suffices hs : ∀ (s : List Char) (prev : Option Char), searchFrom p prev s = some r →
      ∃ (prev2 : Option Char) (s2 : List Char), r ∈ mmatch p prev2 s2 from hs t none h
  intro s
  induction s with
  | nil =>
    intro prev h2
    simp only [searchFrom] at h2
    cases hm : mmatch p prev [] with
    | nil =>
      rw [hm] at h2
      exact Option.noConfusion h2
    | cons r0 t0 =>
      rw [hm] at h2
      injection h2 with h3
      exact ⟨prev, [], by rw [hm, ← h3]; exact List.mem_cons_self _ _⟩
  | cons c rest ih =>
    intro prev h2
    simp only [searchFrom] at h2
    cases hm : mmatch p prev (c :: rest) with
    | cons r0 t0 =>
      rw [hm] at h2
      injection h2 with h3
      exact ⟨prev, c :: rest, by rw [hm, ← h3]; exact List.mem_cons_self _ _⟩
    | nil =>
      rw [hm] at h2
      exact ih (some c) h2

/-- For a pattern of the shape boundary, group, boundary the capture
equals the whole match (the app.py year fallback). -/
theorem cap_eq_consumed_of_bgb {x : RE} {prev : Option Char} {s : List Char} {r : MRes}
    (hr : r ∈ mmatch (RE.seq RE.wordB (RE.seq (RE.group x) (RE.seq RE.wordB RE.eps))) prev s) :
    r.cap = some r.consumed := by
  obtain ⟨r1, h1, r23, h23, rfl⟩ := mem_mmatch_seq hr
  obtain ⟨rg, hg, rr, hrr, rfl⟩ := mem_mmatch_seq h23
  obtain ⟨r2, h2, rfl⟩ := mem_mmatch_group hg
  obtain ⟨rb, hb2, re2, he2, rfl⟩ := mem_mmatch_seq hrr
  have eb := mem_mmatch_wordB hb2
  have ee := mem_mmatch_eps he2
  have e1 := mem_mmatch_wordB h1
  subst eb ee e1
  simp [Option.elim]

theorem groupOrWhole_fold (p : RE) (r : MRes) :
    groupOrWhole p (foldRes r) = (groupOrWhole p r).map ctoLower := by
  unfold groupOrWhole
  by_cases h : hasGroup p = true
  · rw [if_pos h, if_pos h]
    cases hcap : r.cap <;> simp [foldRes, hcap]
  · rw [if_neg h, if_neg h]
    rfl

theorem capOrWhole_fold (r : MRes) :
    capOrWhole (foldRes r) = (capOrWhole r).map ctoLower := by
  unfold capOrWhole
  cases hcap : r.cap <;> simp [foldRes, hcap]

/-! ## C2: case-insensitive matching and the group return policy -/

/-- C2 counterexample: on the text `DOB:12/05/19980` the first matching
pattern of face_match_utils.py is its fourth one, which defines a capture
group whose content is `12/05/1998`; the function nevertheless returns
the whole match `DOB:12/05/1998`, not the captured group. -/
theorem c2_counterexample :
    firstMatchIn fmPatterns "DOB:12/05/19980".toList =
      some (fmP4, ⟨"DOB:12/05/1998".toList, ['0'], some "12/05/1998".toList⟩) ∧
    hasGroup fmP4 = true ∧
    extract_dob_text_fm "DOB:12/05/19980".toList = some "DOB:12/05/1998".toList ∧
    ("DOB:12/05/1998".toList : List Char) ≠ "12/05/1998".toList := by
  refine ⟨by decide, by decide, by decide, by decide⟩

/-- C2 (amended): matching is case-insensitive in all three variants (the
extraction commutes with case folding of the text).  app.py and
ocr_api.py return the captured group when the first matching pattern
defines one and the whole match otherwise (for the app.py year fallback
the two coincide); face_match_utils.py always returns the whole match. -/
theorem c2_group_and_case :
    (∀ t : List Char, extract_dob_text_app (t.map ctoLower)
        = (extract_dob_text_app t).map (List.map ctoLower)) ∧
    (∀ t : List Char, extract_dob_text_fm (t.map ctoLower)
        = (extract_dob_text_fm t).map (List.map ctoLower)) ∧
    (∀ t : List Char, extract_dob_text_ocr (t.map ctoLower)
        = (extract_dob_text_ocr t).map (List.map ctoLower)) ∧
    (∀ (t : List Char) (p : RE) (r : MRes), firstMatchIn appPatterns t = some (p, r) →
      ∃ g, r.cap = some g ∧ extract_dob_text_app t = some g) ∧
    (∀ (t : List Char) (r : MRes), firstMatchIn appPatterns t = none →
      re_search appYearRE t = some r →
      r.cap = some r.consumed ∧ extract_dob_text_app t = some r.consumed) ∧
    (∀ (t : List Char) (p : RE) (r : MRes), firstMatchIn ocrPatterns t = some (p, r) →
      (hasGroup p = true → ∃ g, r.cap = some g ∧ extract_dob_text_ocr t = some g) ∧
      (hasGroup p = false → r.cap = none ∧ extract_dob_text_ocr t = some r.consumed)) ∧
    (∀ (t : List Char) (p : RE) (r : MRes), firstMatchIn fmPatterns t = some (p, r) →
      extract_dob_text_fm t = some r.consumed) := by
  refine ⟨?_, ?_, ?_, ?_, ?_, ?_, ?_⟩
  · intro t
    simp only [extract_dob_text_app]
    rw [firstMatchIn_fold]
    cases hm : firstMatchIn appPatterns t with
    | some pr =>
      obtain ⟨p, r⟩ := pr
      simp [groupOrWhole_fold]
    | none =>
      rw [re_search_fold]
      cases hy : re_search appYearRE t with
      | some r => rfl
      | none => rfl
  · intro t
    simp only [extract_dob_text_fm]
    rw [firstMatchIn_fold]
    cases hm : firstMatchIn fmPatterns t with
    | some pr => rfl
    | none => rfl
  · intro t
    simp only [extract_dob_text_ocr]
    rw [firstMatchIn_fold]
    cases hm : firstMatchIn ocrPatterns t with
    | some pr =>
      obtain ⟨p, r⟩ := pr
      simp [capOrWhole_fold]
    | none => rfl
  · intro t p r hm
    obtain ⟨hp, hs⟩ := firstMatchIn_some_mem hm
    obtain ⟨prev2, s2, hmem⟩ := re_search_mem hs
    have hg : hasGroup p = true := by
      have hx : ∀ q ∈ appPatterns, hasGroup q = true := by decide
      exact hx p hp
    have hag : allGroup p = true := by
      have hx : ∀ q ∈ appPatterns, allGroup q = true := by decide
      exact hx p hp
    obtain ⟨g, hgcap⟩ := cap_some_of_allGroup hag _ _ _ hmem
    refine ⟨g, hgcap, ?_⟩
    simp only [extract_dob_text_app, hm]
    simp [groupOrWhole, hg, hgcap]
  · intro t r hm hy
    obtain ⟨prev2, s2, hmem⟩ := re_search_mem hy
    have hcap : r.cap = some r.consumed := cap_eq_consumed_of_bgb hmem
    refine ⟨hcap, ?_⟩
    simp only [extract_dob_text_app, hm, hy]
  · intro t p r hm
    obtain ⟨hp, hs⟩ := firstMatchIn_some_mem hm
    obtain ⟨prev2, s2, hmem⟩ := re_search_mem hs
    constructor
    · intro hg
      have hag : allGroup p = true := by
        have hx : ∀ q ∈ ocrPatterns, hasGroup q = true → allGroup q = true := by decide
        exact hx p hp hg
      obtain ⟨g, hgcap⟩ := cap_some_of_allGroup hag _ _ _ hmem
      refine ⟨g, hgcap, ?_⟩
      simp only [extract_dob_text_ocr, hm]
      simp [capOrWhole, hgcap]
    · intro hg
      have hc := cap_none_of_not_hasGroup hg _ _ _ hmem
      refine ⟨hc, ?_⟩
      simp only [extract_dob_text_ocr, hm]
      simp [capOrWhole, hc]
  · intro t p r hm
    simp only [extract_dob_text_fm, hm]

/-- Witness for C2 at concrete texts. -/
theorem c2_witness :
    (∃ g, (⟨"DOB: 01/01/2000".toList, [],
        some "01/01/2000".toList⟩ : MRes).cap = some g ∧
      extract_dob_text_app "DOB: 01/01/2000".toList = some g) ∧
    extract_dob_text_fm "DOB:12/05/19980".toList =
      some (⟨"DOB:12/05/1998".toList, ['0'],
        some "12/05/1998".toList⟩ : MRes).consumed ∧
    extract_dob_text_app ("DOB: 01/01/2000".toList.map ctoLower) =
      (extract_dob_text_app "DOB: 01/01/2000".toList).map (List.map ctoLower) :=
  ⟨c2_group_and_case.2.2.2.1 "DOB: 01/01/2000".toList appP1
      ⟨"DOB: 01/01/2000".toList, [], some "01/01/2000".toList⟩ (by decide),
   c2_group_and_case.2.2.2.2.2.2 "DOB:12/05/19980".toList fmP4
      ⟨"DOB:12/05/1998".toList, ['0'], some "12/05/1998".toList⟩ (by decide),
   c2_group_and_case.1 "DOB: 01/01/2000".toList⟩
